import Mathlib

/-!
Verification of the compatibility scoring engine of the `trustscore`
repository (`compatibility.py`) against its natural-language specification.

The engine is embedded shallowly:
* version strings are Lean `String`s; Python `str.split('.')` is
  `String.splitOn "."`, Python substring tests (`'bom' in s`) are encoded
  by `strContains` below;
* the external world (network fetches performed by `urlretrieve` and the
  japicmp subprocess) is abstracted into oracle records, so every theorem
  quantifies over all behaviours of those collaborators. The fetch layer is
  modelled at two levels: the coarse `World` covers the executions in which
  `urlretrieve` either succeeds or fails with the caught
  `urllib.error.HTTPError`, and the refined `WorldE` additionally models
  fetch exceptions the source does NOT catch (`URLError`,
  `ContentTooShortError`, ...), which propagate to the caller; the coarse
  model is proved to be exactly the non-raising fragment of the refined one
  (`compare_versionsE_agrees_on_no_raise`);
* Python floats are modelled by exact rationals `ℚ` (every division the
  code performs is guarded, so no rounding subtleties arise in the claims);
* the Python loop accumulators of `compare_all` become a `Counters`
  record threaded through a structural recursion over adjacent pairs.
-/

namespace TrustScore

/-- `isLeadingOf pat s` holds when the character list `pat` is an initial
segment of `s`; this is Python `s.startswith(pat)` on exploded strings. -/
def isLeadingOf : List Char → List Char → Bool
  | [], _ => true
  | _ :: _, [] => false
  | a :: as, b :: bs => a = b && isLeadingOf as bs

/-- `hasSub pat s` holds when `pat` occurs as a contiguous subsequence of
`s`; this is Python `pat in s` on exploded strings. -/
def hasSub (pat : List Char) : List Char → Bool
  | [] => decide (pat = [])
  | c :: rest => isLeadingOf pat (c :: rest) || hasSub pat rest

/-- Python `pat in s` (substring containment) on `String`s. -/
def strContains (s pat : String) : Bool :=
  hasSub pat.data s.data

/-- Python `s.startswith(pat)` on `String`s. -/
def strStartsWith (s pat : String) : Bool :=
  isLeadingOf pat.data s.data

/-- Python `str.split(sep)` for a single-character separator, on exploded
strings: splits at every occurrence of `sep`, keeping empty chunks, and
yields `[""]` on the empty string — exactly CPython's behaviour for a
non-empty separator. -/
def splitOnChar (sep : Char) : List Char → List (List Char)
  | [] => [[]]
  | c :: rest =>
    let r := splitOnChar sep rest
    if c = sep then [] :: r
    else
      match r with
      | [] => [[c]]
      | g :: gs => (c :: g) :: gs

/-- Python `version.split('.')` on `String`s. -/
def splitDots (s : String) : List String :=
  (splitOnChar '.' s.data).map String.mk

/-- `MAVEN_CENTRAL` constant from `compatibility.py`. -/
def MAVEN_CENTRAL : String := "https://repo1.maven.org/maven2"

/-- `maven_to_path(group_id, artifact_id, version)` from `compatibility.py`:
builds the download URL of the jar artifact. -/
def maven_to_path (group_id artifact_id version : String) : String :=
  MAVEN_CENTRAL ++ "/" ++ (group_id.replace "." "/") ++ "/" ++ artifact_id ++
    "/" ++ version ++ "/" ++ artifact_id ++ "-" ++ version ++ ".jar"

/-- Result of one run of the external japicmp subprocess
(`subprocess.run` in `execute_jcmp`): its standard output and exit code. -/
structure RunResult where
  stdout : String
  returncode : Int
deriving DecidableEq, Repr

/-- The external collaborators of the engine in the coarse fetch model:
`fetchOk url = true` models a successful `urlretrieve url`, and
`fetchOk url = false` a failure raising `urllib.error.HTTPError` — the ONLY
exception `download_jar` catches. Executions in which `urlretrieve` raises
any other exception are outside this model; they are covered by the
refined `WorldE` model below, of which this one is provably the
non-raising fragment (`compare_versionsE_agrees_on_no_raise`).
`jcmp old new` is the outcome of running the japicmp tool on the two
downloaded jar paths. -/
structure World where
  fetchOk : String → Bool
  jcmp : String → String → RunResult

/-- `download_jar(group_id, artifact_id, version, dest_dir)` from
`compatibility.py`, in the coarse fetch model: returns `none` for
bom/parent artifact ids or on a fetch failing with the caught `HTTPError`
(the `except urllib.error.HTTPError` branch), otherwise the local jar
path. Fetch failures raising any other exception are not expressible here
— see `download_jarE` for the refined model in which they propagate. -/
def download_jar (w : World) (group_id artifact_id version dest_dir : String) :
    Option String :=
  if strContains artifact_id "bom" ∨ strContains artifact_id "parent" then
    none
  else
    let jar_url := maven_to_path group_id artifact_id version
    let jar_path := dest_dir ++ "/" ++ artifact_id ++ "-" ++ version ++ ".jar"
    if w.fetchOk jar_url then some jar_path else none

/-- `execute_jcmp(old_jar, new_jar)` from `compatibility.py`, as a function
of the subprocess outcome: returns `0` (incompatible) when stdout contains
the `"!"` marker or the exit status is non-zero, else `1` (compatible). -/
def execute_jcmp (result : RunResult) : Nat :=
  if strContains result.stdout "!" ∨ result.returncode ≠ 0 then 0 else 1

/-- `compare_versions(group_id, artifact_id, old_version, new_version)` from
`compatibility.py`: downloads both jars into a temporary directory; if either
download yields `None`, returns `1` (assumed compatible) without running the
tool; otherwise runs japicmp on the two paths. -/
def compare_versions (w : World) (group_id artifact_id old_version new_version : String) :
    Nat :=
  let temp_dir := "tmpdir"
  let old_jar := download_jar w group_id artifact_id old_version temp_dir
  let new_jar := download_jar w group_id artifact_id new_version temp_dir
  match old_jar, new_jar with
  | some o, some n => execute_jcmp (w.jcmp o n)
  | _, _ => 1

/-- Outcome of one `urlretrieve url` call in the refined fetch model:
success, failure raising `urllib.error.HTTPError` (the only exception the
`try/except` of `download_jar` catches), or failure raising any other
exception (`urllib.error.URLError` for DNS/connection failures,
`ContentTooShortError`, ...), which `download_jar` does NOT catch. -/
inductive FetchOutcome where
  | ok
  | httpError
  | raised
deriving DecidableEq, Repr

/-- The external collaborators in the refined fetch model: `fetch url`
distinguishes the caught `HTTPError` failure from an uncaught fetch
exception. -/
structure WorldE where
  fetch : String → FetchOutcome
  jcmp : String → String → RunResult

/-- `download_jar` from `compatibility.py` in the refined fetch model:
`Except.error url` models an exception raised by `urlretrieve url` that
the `except urllib.error.HTTPError` clause does not catch and that
therefore propagates to the caller; `Except.ok none` is the caught
`HTTPError` branch (and the bom/parent early return), `Except.ok (some p)`
the successful download. -/
def download_jarE (w : WorldE) (group_id artifact_id version dest_dir : String) :
    Except String (Option String) :=
  if strContains artifact_id "bom" ∨ strContains artifact_id "parent" then
    Except.ok none
  else
    let jar_url := maven_to_path group_id artifact_id version
    let jar_path := dest_dir ++ "/" ++ artifact_id ++ "-" ++ version ++ ".jar"
    match w.fetch jar_url with
    | FetchOutcome.ok => Except.ok (some jar_path)
    | FetchOutcome.httpError => Except.ok none
    | FetchOutcome.raised => Except.error jar_url

/-- `compare_versions` from `compatibility.py` in the refined fetch model:
the two downloads run in order, and an uncaught fetch exception aborts the
comparison at that point (if the first download raises, the second never
runs); on every non-raising path the result is as in the source — `1` when
either jar is missing, otherwise the japicmp verdict. -/
def compare_versionsE (w : WorldE)
    (group_id artifact_id old_version new_version : String) :
    Except String Nat :=
  let temp_dir := "tmpdir"
  match download_jarE w group_id artifact_id old_version temp_dir with
  | Except.error e => Except.error e
  | Except.ok old_jar =>
    match download_jarE w group_id artifact_id new_version temp_dir with
    | Except.error e => Except.error e
    | Except.ok new_jar =>
      match old_jar, new_jar with
      | some o, some n => Except.ok (execute_jcmp (w.jcmp o n))
      | _, _ => Except.ok 1

/-- Projection of a refined world whose fetches never raise uncaught
exceptions onto the coarse model: a fetch is "ok" exactly when it
succeeds, and every failure is the caught `HTTPError`. -/
def WorldE.toWorld (w : WorldE) : World :=
  { fetchOk := fun url =>
      match w.fetch url with
      | FetchOutcome.ok => true
      | _ => false
    jcmp := w.jcmp }

/-- Helper for `split_majors`: iterates over the version list carrying the
`majors_seen` set (modelled as a list with membership), emitting for each
first-seen major the sublist of ALL versions of the full input that start
with that major string (the code tests `version.startswith(major)`). -/
def splitMajorsAux (all : List String) (seen : List String) :
    List String → List (List String)
  | [] => []
  | v :: rest =>
    let major := (splitDots v).headD ""
    if major ∈ seen then
      splitMajorsAux all seen rest
    else
      (all.filter (fun w => strStartsWith w major)) ::
        splitMajorsAux all (major :: seen) rest

/-- `split_majors(versions)` from `compatibility.py`. -/
def split_majors (versions : List String) : List (List String) :=
  splitMajorsAux versions [] versions

/-- The three labels `check_update_type` can return (`"minor"`, `"patch"`,
`"weird"`); the Python function can also fall through returning `None`,
which the embedding renders as `Option UpdateType`. -/
inductive UpdateType where
  | minor
  | patch
  | weird
deriving DecidableEq, Repr

/-- `check_update_type(old_version, new_version)` from `compatibility.py`.
Splits both versions on `"."`; mismatching or non-3 component counts give
`weird`; else differing second components give `minor`; else differing third
components give `patch`; else the Python function returns `None`. -/
def check_update_type (old_version new_version : String) : Option UpdateType :=
  let old := splitDots old_version
  let new := splitDots new_version
  if old.length ≠ new.length ∨ old.length ≠ 3 ∨ new.length ≠ 3 then
    some .weird
  else if old.getD 1 "" ≠ new.getD 1 "" then
    some .minor
  else if old.getD 2 "" ≠ new.getD 2 "" then
    some .patch
  else
    none

/-- The local accumulator variables of the `compare_all` loop. -/
structure Counters where
  total_score : Nat
  minor_amounts : Nat
  minor_score : Nat
  patch_amounts : Nat
  patch_score : Nat
  weird_update : Nat
  weird_score : Nat
deriving DecidableEq, Repr

/-- All-zero initial accumulator of `compare_all`. -/
def Counters.init : Counters := ⟨0, 0, 0, 0, 0, 0, 0⟩

/-- One iteration of the `compare_all` loop body for the adjacent pair
`(oldv, newv)`: `cmpf` abstracts the `compare_versions` call. -/
def tallyStep (cmpf : String → String → Nat) (c : Counters)
    (oldv newv : String) : Counters :=
  let cmp := cmpf oldv newv
  let inc : Nat := if cmp = 1 then 1 else 0
  let c1 : Counters := { c with total_score := c.total_score + inc }
  match check_update_type oldv newv with
  | some .minor =>
      { c1 with minor_score := c1.minor_score + inc,
                minor_amounts := c1.minor_amounts + 1 }
  | some .patch =>
      { c1 with patch_score := c1.patch_score + inc,
                patch_amounts := c1.patch_amounts + 1 }
  | _ =>
      { c1 with weird_update := c1.weird_update + 1,
                weird_score := c1.weird_score + inc }

/-- The `for i in range(len(versions) - 1)` loop of `compare_all`, expressed
as a left-to-right recursion over adjacent pairs of the list. -/
def runPairs (cmpf : String → String → Nat) (c : Counters) :
    List String → Counters
  | a :: b :: rest => runPairs cmpf (tallyStep cmpf c a b) (b :: rest)
  | _ => c

/-- The per-group result dictionary built by `compare_all`:
`total_score` is a ratio (the code divides by `len(versions)`), the
remaining fields are the raw integer counters. -/
structure GroupTally where
  total_score : ℚ
  minor_score : Nat
  minor_amounts : Nat
  patch_score : Nat
  patch_amounts : Nat
  weird_score : Nat
  weird_amounts : Nat
deriving DecidableEq, Repr

/-- `compare_all(group_id, artifact_id, versions)` from `compatibility.py`,
with the external world abstracted: walks adjacent pairs of `versions`
calling `compare_versions` and `check_update_type`, then divides the
compatible count by `len(versions)` (the length of its own argument, which
at the call site in `get_score` is one major group). -/
def compare_all (w : World) (group_id artifact_id : String)
    (versions : List String) : GroupTally :=
  let c := runPairs (compare_versions w group_id artifact_id) Counters.init versions
  { total_score := (c.total_score : ℚ) / (versions.length : ℚ)
    minor_score := c.minor_score
    minor_amounts := c.minor_amounts
    patch_score := c.patch_score
    patch_amounts := c.patch_amounts
    weird_score := c.weird_score
    weird_amounts := c.weird_update }

/-- The result dictionary built by `get_score`: coordinate, the amount
fields (integers) and the score fields (ratios). -/
structure ScoreRecord where
  group_id : String
  artifact_id : String
  total_amounts : Nat
  total_score : ℚ
  minor_amounts : Nat
  minor_score : ℚ
  patch_amounts : Nat
  patch_score : ℚ
  weird_amounts : Nat
  weird_score : ℚ
deriving DecidableEq, Repr

/-- `get_score(group_id, artifact_id, versions)` from `compatibility.py`,
with the external world abstracted (the japicmp self-download at the top of
the function is pure environment setup and is not part of the data flow):
splits the history into major groups, runs `compare_all` on each group, and
aggregates with the guarded divisions of the source. -/
def get_score (w : World) (group_id artifact_id : String)
    (versions : List String) : ScoreRecord :=
  let major_groups := split_majors versions
  let group_results := major_groups.map (compare_all w group_id artifact_id)
  let minor_amounts := (group_results.map (fun g => g.minor_amounts)).sum
  let patch_amounts := (group_results.map (fun g => g.patch_amounts)).sum
  let weird_amounts := (group_results.map (fun g => g.weird_amounts)).sum
  { group_id := group_id
    artifact_id := artifact_id
    total_amounts := versions.length
    total_score :=
      if group_results.length > 0 then
        ((group_results.map (fun g => g.total_score)).sum) /
          (group_results.length : ℚ)
      else 0
    minor_amounts := minor_amounts
    minor_score :=
      if minor_amounts > 0 then
        (((group_results.map (fun g => g.minor_score)).sum : Nat) : ℚ) /
          (minor_amounts : ℚ)
      else 0
    patch_amounts := patch_amounts
    patch_score :=
      if patch_amounts > 0 then
        (((group_results.map (fun g => g.patch_score)).sum : Nat) : ℚ) /
          (patch_amounts : ℚ)
      else 0
    weird_amounts := weird_amounts
    weird_score :=
      if weird_amounts > 0 then
        (((group_results.map (fun g => g.weird_score)).sum : Nat) : ℚ) /
          (weird_amounts : ℚ)
      else 0 }

/-- A concrete world in which every fetch succeeds and the diff tool always
reports a clean run (empty stdout, exit status 0), so that
`compare_versions` returns `1` on every invocation. -/
def worldAllOk : World :=
  { fetchOk := fun _ => true
    jcmp := fun _ _ => ⟨"", 0⟩ }

/-- A concrete refined world in which every fetch raises an exception other
than `HTTPError` (e.g. a `urllib.error.URLError` connection failure) while
the diff tool, were it ever reached, would report a clean run. -/
def worldRaise : WorldE :=
  { fetch := fun _ => FetchOutcome.raised
    jcmp := fun _ _ => ⟨"", 0⟩ }

/-- Componentwise addition of loop accumulators, used to factor the loop
state out of `runPairs`. -/
def addC (c d : Counters) : Counters :=
  ⟨c.total_score + d.total_score,
   c.minor_amounts + d.minor_amounts,
   c.minor_score + d.minor_score,
   c.patch_amounts + d.patch_amounts,
   c.patch_score + d.patch_score,
   c.weird_update + d.weird_update,
   c.weird_score + d.weird_score⟩

lemma addC_init_right (c : Counters) : addC c Counters.init = c := by
  simp [addC, Counters.init]

lemma tallyStep_addC (cmpf : String → String → Nat) (c d : Counters)
    (a b : String) :
    tallyStep cmpf (addC c d) a b = addC c (tallyStep cmpf d a b) := by
  unfold tallyStep
  rcases h : check_update_type a b with _ | t
  · simp [addC, Nat.add_assoc]
  · cases t <;> simp [addC, Nat.add_assoc]

lemma runPairs_addC (cmpf : String → String → Nat) (c d : Counters)
    (l : List String) :
    runPairs cmpf (addC c d) l = addC c (runPairs cmpf d l) := by
  induction l generalizing d with
  | nil => rfl
  | cons a tl ih =>
    cases tl with
    | nil => rfl
    | cons b rest =>
      show runPairs cmpf (tallyStep cmpf (addC c d) a b) (b :: rest) = _
      rw [tallyStep_addC, ih]
      rfl

lemma runPairs_eq_addC (cmpf : String → String → Nat) (c : Counters)
    (l : List String) :
    runPairs cmpf c l = addC c (runPairs cmpf Counters.init l) := by
  conv_lhs => rw [← addC_init_right c]
  exact runPairs_addC cmpf c Counters.init l

lemma tallyStep_total_score (cmpf : String → String → Nat) (c : Counters)
    (a b : String) :
    (tallyStep cmpf c a b).total_score =
      c.total_score + (if cmpf a b = 1 then 1 else 0) := by
  unfold tallyStep
  rcases h : check_update_type a b with _ | t
  · simp
  · cases t <;> simp

lemma tallyStep_amounts (cmpf : String → String → Nat) (c : Counters)
    (a b : String) :
    (tallyStep cmpf c a b).minor_amounts + (tallyStep cmpf c a b).patch_amounts +
      (tallyStep cmpf c a b).weird_update =
      c.minor_amounts + c.patch_amounts + c.weird_update + 1 := by
  unfold tallyStep
  rcases h : check_update_type a b with _ | t
  · simp; omega
  · cases t <;> simp <;> omega

lemma runPairs_cons_cons (cmpf : String → String → Nat) (c : Counters)
    (a b : String) (rest : List String) :
    runPairs cmpf c (a :: b :: rest) =
      addC (tallyStep cmpf c a b) (runPairs cmpf Counters.init (b :: rest)) := by
  show runPairs cmpf (tallyStep cmpf c a b) (b :: rest) = _
  exact runPairs_eq_addC cmpf (tallyStep cmpf c a b) (b :: rest)

/-- The compatible-transition counter accumulated by the `compare_all` loop
counts the adjacent pairs on which the comparator returns `1`. -/
lemma runPairs_total_score (cmpf : String → String → Nat) (l : List String) :
    (runPairs cmpf Counters.init l).total_score =
      (l.zip l.tail).countP (fun p => cmpf p.1 p.2 == 1) := by
  induction l with
  | nil => rfl
  | cons a tl ih =>
    cases tl with
    | nil => rfl
    | cons b rest =>
      rw [runPairs_cons_cons]
      simp only [addC, tallyStep_total_score, ih, List.tail_cons, List.zip_cons_cons,
        List.countP_cons]
      simp only [Counters.init, beq_iff_eq]
      by_cases hc : cmpf a b = 1 <;> simp [hc, Nat.add_comm]

/-- The three per-classification transition counters of the `compare_all`
loop sum to the number of adjacent pairs of the list. -/
lemma runPairs_amounts (cmpf : String → String → Nat) (l : List String) :
    (runPairs cmpf Counters.init l).minor_amounts +
      (runPairs cmpf Counters.init l).patch_amounts +
      (runPairs cmpf Counters.init l).weird_update = l.length - 1 := by
  induction l with
  | nil => rfl
  | cons a tl ih =>
    cases tl with
    | nil => rfl
    | cons b rest =>
      rw [runPairs_cons_cons]
      have hstep := tallyStep_amounts cmpf Counters.init a b
      simp only [addC]
      simp only [Counters.init] at hstep ih ⊢
      simp only [List.length_cons] at ih ⊢
      omega

lemma splitOnChar_ne_nil (sep : Char) (l : List Char) : splitOnChar sep l ≠ [] := by
  cases l with
  | nil => simp [splitOnChar]
  | cons c rest =>
    simp only [splitOnChar]
    split
    · simp
    · split <;> simp

/-- The first chunk produced by `splitOnChar` is a leading segment of the
split string (Python: `s.startswith(s.split(sep)[0])`). -/
lemma isLeadingOf_headD_splitOnChar (sep : Char) (l : List Char) :
    isLeadingOf ((splitOnChar sep l).headD []) l = true := by
  induction l with
  | nil => rfl
  | cons c rest ih =>
    simp only [splitOnChar]
    by_cases hc : c = sep
    · simp [hc, isLeadingOf]
    · rcases hr : splitOnChar sep rest with _ | ⟨g, gs⟩
      · exact absurd hr (splitOnChar_ne_nil sep rest)
      · rw [hr] at ih
        simp only [List.headD_cons] at ih
        simp [hc, hr, isLeadingOf, ih]

/-- Every version string starts with its own major component, i.e. with the
first chunk of its dot-split (Python: `v.startswith(v.split('.')[0])`). -/
lemma strStartsWith_own_major (v : String) :
    strStartsWith v ((splitDots v).headD "") = true := by
  unfold strStartsWith splitDots
  rcases hr : splitOnChar '.' v.data with _ | ⟨g, gs⟩
  · exact absurd hr (splitOnChar_ne_nil '.' v.data)
  · have h := isLeadingOf_headD_splitOnChar '.' v.data
    rw [hr] at h
    simpa using h

/-- Every group emitted by `splitMajorsAux` is non-empty, provided the
versions still to visit all belong to the full input list. -/
lemma splitMajorsAux_groups_ne_nil (all : List String) :
    ∀ cur : List String, (∀ v ∈ cur, v ∈ all) →
      ∀ seen grp, grp ∈ splitMajorsAux all seen cur → grp ≠ [] := by
  intro cur
  induction cur with
  | nil =>
    intro _ seen grp hg
    simp [splitMajorsAux] at hg
  | cons v rest ih =>
    intro hsub seen grp hg
    simp only [splitMajorsAux] at hg
    split at hg
    · exact ih (fun x hx => hsub x (List.mem_cons_of_mem v hx)) seen grp hg
    · rcases List.mem_cons.mp hg with hgrp | hrec
      · subst hgrp
        have hv : v ∈ all := hsub v (List.mem_cons_self v rest)
        have hp : strStartsWith v ((splitDots v).headD "") = true :=
          strStartsWith_own_major v
        exact List.ne_nil_of_mem (List.mem_filter.mpr ⟨hv, hp⟩)
      · exact ih (fun x hx => hsub x (List.mem_cons_of_mem v hx)) _ grp hrec

/-- Every group produced by `split_majors` is non-empty: each first-seen
major contributes at least the version that introduced it (so the division
by the group length in `compare_all` never divides by zero). -/
lemma split_majors_groups_ne_nil (versions : List String) :
    ∀ grp ∈ split_majors versions, grp ≠ [] :=
  fun grp hg =>
    splitMajorsAux_groups_ne_nil versions versions (fun _ hv => hv) [] grp hg

/-- `check_update_type` returns no label exactly when both versions split
into exactly 3 dot-separated components and the second and third
components agree. -/
lemma check_update_type_eq_none_iff (oldv newv : String) :
    check_update_type oldv newv = none ↔
      (splitDots oldv).length = 3 ∧ (splitDots newv).length = 3 ∧
        (splitDots oldv).getD 1 "" = (splitDots newv).getD 1 "" ∧
        (splitDots oldv).getD 2 "" = (splitDots newv).getD 2 "" := by
  simp only [check_update_type]
  split_ifs with h1 h2 h3 <;> simp_all
  omega

lemma compare_all_total_score (w : World) (g a : String) (vs : List String) :
    (compare_all w g a vs).total_score =
      ((runPairs (compare_versions w g a) Counters.init vs).total_score : ℚ) /
        (vs.length : ℚ) := rfl

lemma compare_all_minor_amounts (w : World) (g a : String) (vs : List String) :
    (compare_all w g a vs).minor_amounts =
      (runPairs (compare_versions w g a) Counters.init vs).minor_amounts := rfl

lemma compare_all_patch_amounts (w : World) (g a : String) (vs : List String) :
    (compare_all w g a vs).patch_amounts =
      (runPairs (compare_versions w g a) Counters.init vs).patch_amounts := rfl

lemma compare_all_weird_amounts (w : World) (g a : String) (vs : List String) :
    (compare_all w g a vs).weird_amounts =
      (runPairs (compare_versions w g a) Counters.init vs).weird_update := rfl

lemma compare_all_weird_score (w : World) (g a : String) (vs : List String) :
    (compare_all w g a vs).weird_score =
      (runPairs (compare_versions w g a) Counters.init vs).weird_score := rfl

lemma get_score_total_amounts (w : World) (g a : String) (vs : List String) :
    (get_score w g a vs).total_amounts = vs.length := rfl

lemma get_score_total_score (w : World) (g a : String) (vs : List String) :
    (get_score w g a vs).total_score =
      if ((split_majors vs).map (compare_all w g a)).length > 0 then
        (((split_majors vs).map (compare_all w g a)).map
            (fun t => t.total_score)).sum /
          (((split_majors vs).map (compare_all w g a)).length : ℚ)
      else 0 := rfl

lemma get_score_minor_amounts (w : World) (g a : String) (vs : List String) :
    (get_score w g a vs).minor_amounts =
      (((split_majors vs).map (compare_all w g a)).map
          (fun t => t.minor_amounts)).sum := rfl

lemma get_score_patch_amounts (w : World) (g a : String) (vs : List String) :
    (get_score w g a vs).patch_amounts =
      (((split_majors vs).map (compare_all w g a)).map
          (fun t => t.patch_amounts)).sum := rfl

lemma get_score_weird_amounts (w : World) (g a : String) (vs : List String) :
    (get_score w g a vs).weird_amounts =
      (((split_majors vs).map (compare_all w g a)).map
          (fun t => t.weird_amounts)).sum := rfl

lemma get_score_minor_score (w : World) (g a : String) (vs : List String) :
    (get_score w g a vs).minor_score =
      if (((split_majors vs).map (compare_all w g a)).map
            (fun t => t.minor_amounts)).sum > 0 then
        (((((split_majors vs).map (compare_all w g a)).map
              (fun t => t.minor_score)).sum : ℕ) : ℚ) /
          (((((split_majors vs).map (compare_all w g a)).map
              (fun t => t.minor_amounts)).sum : ℕ) : ℚ)
      else 0 := rfl

lemma get_score_patch_score (w : World) (g a : String) (vs : List String) :
    (get_score w g a vs).patch_score =
      if (((split_majors vs).map (compare_all w g a)).map
            (fun t => t.patch_amounts)).sum > 0 then
        (((((split_majors vs).map (compare_all w g a)).map
              (fun t => t.patch_score)).sum : ℕ) : ℚ) /
          (((((split_majors vs).map (compare_all w g a)).map
              (fun t => t.patch_amounts)).sum : ℕ) : ℚ)
      else 0 := rfl

lemma get_score_weird_score (w : World) (g a : String) (vs : List String) :
    (get_score w g a vs).weird_score =
      if (((split_majors vs).map (compare_all w g a)).map
            (fun t => t.weird_amounts)).sum > 0 then
        (((((split_majors vs).map (compare_all w g a)).map
              (fun t => t.weird_score)).sum : ℕ) : ℚ) /
          (((((split_majors vs).map (compare_all w g a)).map
              (fun t => t.weird_amounts)).sum : ℕ) : ℚ)
      else 0 := rfl

/-- On a list with at most one element the `compare_all` loop never runs, so
every counter is zero and the only division is `0 / len`, giving `0`. -/
lemma compare_all_short (w : World) (g a : String) (vs : List String)
    (h : vs.length ≤ 1) : compare_all w g a vs = ⟨0, 0, 0, 0, 0, 0, 0⟩ := by
  rcases vs with _ | ⟨v, _ | ⟨b, rest⟩⟩
  · simp [compare_all, runPairs, Counters.init]
  · simp [compare_all, runPairs, Counters.init]
  · simp [List.length_cons] at h

lemma runPairs_total_score_all_one (cmpf : String → String → Nat)
    (l : List String) (h : ∀ a b, cmpf a b = 1) :
    (runPairs cmpf Counters.init l).total_score = l.length - 1 := by
  rw [runPairs_total_score]
  have hall : (l.zip l.tail).countP (fun p => cmpf p.1 p.2 == 1) =
      (l.zip l.tail).length :=
    List.countP_eq_length.mpr (fun p _ => by simp [h])
  rw [hall, List.length_zip, List.length_tail]
  exact Nat.min_eq_right (Nat.sub_le _ _)

lemma sum_map_add3 {α : Type} (l : List α) (f g h : α → ℕ) :
    (l.map f).sum + (l.map g).sum + (l.map h).sum =
      (l.map (fun x => f x + g x + h x)).sum := by
  induction l with
  | nil => rfl
  | cons x tl ih =>
    simp only [List.map_cons, List.sum_cons]
    omega

lemma tallyStep_weird_of_none (cmpf : String → String → Nat) (c : Counters)
    (oldv newv : String) (h : check_update_type oldv newv = none) :
    (tallyStep cmpf c oldv newv).weird_update = c.weird_update + 1 ∧
    (tallyStep cmpf c oldv newv).weird_score =
      c.weird_score + (if cmpf oldv newv = 1 then 1 else 0) := by
  unfold tallyStep
  rw [h]
  constructor <;> simp

/-- On a refined world whose fetches never raise an uncaught exception,
`download_jarE` never errors and agrees with the coarse `download_jar`. -/
lemma download_jarE_agrees_on_no_raise (w : WorldE)
    (hnr : ∀ url, w.fetch url ≠ FetchOutcome.raised)
    (group_id artifact_id version dest_dir : String) :
    download_jarE w group_id artifact_id version dest_dir =
      Except.ok (download_jar w.toWorld group_id artifact_id version dest_dir) := by
  unfold download_jarE download_jar WorldE.toWorld
  by_cases hb : strContains artifact_id "bom" = true ∨
      strContains artifact_id "parent" = true
  · simp [hb]
  · rcases hf : w.fetch (maven_to_path group_id artifact_id version)
      with _ | _ | _
    · simp [hb, hf]
    · simp [hb, hf]
    · exact absurd hf (hnr _)

/-- The coarse `World` model is exactly the non-raising fragment of the
refined model: when no fetch raises an uncaught exception,
`compare_versionsE` never errors and computes the coarse
`compare_versions` verdict. -/
lemma compare_versionsE_agrees_on_no_raise (w : WorldE)
    (hnr : ∀ url, w.fetch url ≠ FetchOutcome.raised)
    (group_id artifact_id old_version new_version : String) :
    compare_versionsE w group_id artifact_id old_version new_version =
      Except.ok (compare_versions w.toWorld group_id artifact_id
        old_version new_version) := by
  simp only [compare_versionsE, compare_versions]
  rw [download_jarE_agrees_on_no_raise w hnr,
    download_jarE_agrees_on_no_raise w hnr]
  cases download_jar w.toWorld group_id artifact_id old_version "tmpdir" <;>
    cases download_jar w.toWorld group_id artifact_id new_version "tmpdir" <;>
    rfl

/-- C1: the specification states that `split_majors` partitions the version
history (every version in exactly one group). The code instead collects
`version.startswith(major)`, so on `["1.0.0", "10.0.0"]` the version
`"10.0.0"` lands both in the group of major `"1"` (as a string-prefix
match) and in its own group of major `"10"`: it occurs twice across the
output groups, refuting the partition invariant. -/
theorem C1_split_majors_not_a_partition :
    split_majors ["1.0.0", "10.0.0"] = [["1.0.0", "10.0.0"], ["10.0.0"]] ∧
    ((split_majors ["1.0.0", "10.0.0"]).map (fun g => g.count "10.0.0")).sum = 2 := by
  decide

/-- C9: `execute_jcmp` reports incompatible (`0`) exactly when the tool's
stdout contains the `"!"` marker or its exit status is non-zero, and
compatible (`1`) exactly when the output is clean and the exit status is
zero, for every possible run of the diff tool. -/
theorem C9_execute_jcmp_spec (r : RunResult) :
    (execute_jcmp r = 0 ↔ strContains r.stdout "!" = true ∨ r.returncode ≠ 0) ∧
    (execute_jcmp r = 1 ↔ strContains r.stdout "!" = false ∧ r.returncode = 0) := by
  unfold execute_jcmp
  by_cases h : strContains r.stdout "!" = true ∨ r.returncode ≠ 0
  · rw [if_pos h]
    constructor
    · simp [h]
    · rcases h with h | h <;> simp [h]
  · rw [if_neg h]
    rw [not_or] at h
    obtain ⟨ha, hb⟩ := h
    rw [not_not] at hb
    simp only [Bool.not_eq_true] at ha
    simp [ha, hb]

/-- C6: `check_update_type` splits both versions on `'.'`; it returns weird
exactly when the splits do not both have 3 components (which subsumes a
component-count mismatch), minor exactly when both have 3 components and
the second components differ, patch exactly when both have 3 components,
the second components agree and the third differ; and it yields the three
examples of the spec. The embedding is a total function, so no exception is
raised on malformed input. -/
theorem C6_check_update_type_spec :
    (∀ oldv newv : String,
      (check_update_type oldv newv = some UpdateType.weird ↔
        ¬((splitDots oldv).length = 3 ∧ (splitDots newv).length = 3)) ∧
      (check_update_type oldv newv = some UpdateType.minor ↔
        (splitDots oldv).length = 3 ∧ (splitDots newv).length = 3 ∧
          (splitDots oldv).getD 1 "" ≠ (splitDots newv).getD 1 "") ∧
      (check_update_type oldv newv = some UpdateType.patch ↔
        (splitDots oldv).length = 3 ∧ (splitDots newv).length = 3 ∧
          (splitDots oldv).getD 1 "" = (splitDots newv).getD 1 "" ∧
          (splitDots oldv).getD 2 "" ≠ (splitDots newv).getD 2 "")) ∧
    check_update_type "1.2.3" "1.3.0" = some UpdateType.minor ∧
    check_update_type "1.2.3" "1.2.4" = some UpdateType.patch ∧
    check_update_type "1.2" "1.2.1" = some UpdateType.weird := by
  refine ⟨fun oldv newv => ?_, by decide, by decide, by decide⟩
  by_cases ho : (splitDots oldv).length = 3 <;>
    by_cases hn : (splitDots newv).length = 3 <;>
    by_cases he1 : (splitDots oldv).getD 1 "" = (splitDots newv).getD 1 "" <;>
    by_cases he2 : (splitDots oldv).getD 2 "" = (splitDots newv).getD 2 "" <;>
    simp_all [check_update_type]

/-- C7 counterexample: the spec claims classification is total (every pair
of versions receives exactly one label), but on two textually identical
well-formed versions the code falls through every branch and returns no
label at all. -/
theorem C7_no_label_on_equal_versions :
    check_update_type "1.2.3" "1.2.3" = none := by decide

/-- C7 (amended): classification returns at most one label (the function is
single-valued into an option), and it returns a label exactly when NOT both
versions split into 3 components with equal second and equal third
components; in the remaining degenerate case no label is produced. -/
theorem C7_classification_amended (oldv newv : String) :
    (check_update_type oldv newv).isSome = true ↔
      ¬((splitDots oldv).length = 3 ∧ (splitDots newv).length = 3 ∧
        (splitDots oldv).getD 1 "" = (splitDots newv).getD 1 "" ∧
        (splitDots oldv).getD 2 "" = (splitDots newv).getD 2 "") := by
  rw [Option.isSome_iff_ne_none]
  exact not_congr (check_update_type_eq_none_iff oldv newv)

/-- C5 counterexample: for the history `["1.0.0", "1.0.1", "2.0.0"]` (size
3) with an always-compatible comparator, the first major group is
`["1.0.0", "1.0.1"]` with exactly one compatible transition; the code's
per-group ratio is `1/2` (denominator = group size), not the `1/3`
(denominator = whole-history size) stated by the claim. -/
theorem C5_group_ratio_counterexample :
    split_majors ["1.0.0", "1.0.1", "2.0.0"] = [["1.0.0", "1.0.1"], ["2.0.0"]] ∧
    (runPairs (compare_versions worldAllOk "org.example" "lib") Counters.init
        ["1.0.0", "1.0.1"]).total_score = 1 ∧
    (compare_all worldAllOk "org.example" "lib" ["1.0.0", "1.0.1"]).total_score =
      1 / 2 ∧
    (compare_all worldAllOk "org.example" "lib" ["1.0.0", "1.0.1"]).total_score ≠
      1 / 3 := by
  refine ⟨by decide, by decide, ?_, ?_⟩ <;>
    rw [compare_all_total_score,
      show (runPairs (compare_versions worldAllOk "org.example" "lib") Counters.init
          ["1.0.0", "1.0.1"]).total_score = 1 from by decide] <;>
    norm_num

/-- C5 (amended): the per-group `total_score` ratio computed by
`compare_all` equals the number of compatible adjacent transitions of the
group divided by the size of the GROUP itself (the length of the list
`compare_all` receives), not the size of the original ungrouped history. -/
theorem C5_group_ratio_amended (w : World) (g a : String) (grp : List String) :
    (compare_all w g a grp).total_score =
      (((grp.zip grp.tail).countP
          (fun p => compare_versions w g a p.1 p.2 == 1) : ℕ) : ℚ) /
        (grp.length : ℚ) := by
  rw [compare_all_total_score, runPairs_total_score]

/-- C10: an adjacent pair on which `check_update_type` returns no label
(both versions split into exactly 3 components with equal second and equal
third components, e.g. two identical versions) is tallied by the
`compare_all` loop in the weird bucket: `weird_amounts` grows by one and
`weird_score` grows by one exactly when the comparison outcome is
compatible. -/
theorem C10_no_label_counts_weird (w : World) (g a oldv newv : String)
    (rest : List String)
    (h : (splitDots oldv).length = 3 ∧ (splitDots newv).length = 3 ∧
      (splitDots oldv).getD 1 "" = (splitDots newv).getD 1 "" ∧
      (splitDots oldv).getD 2 "" = (splitDots newv).getD 2 "") :
    check_update_type oldv newv = none ∧
    (compare_all w g a (oldv :: newv :: rest)).weird_amounts =
      (compare_all w g a (newv :: rest)).weird_amounts + 1 ∧
    (compare_all w g a (oldv :: newv :: rest)).weird_score =
      (compare_all w g a (newv :: rest)).weird_score +
        (if compare_versions w g a oldv newv = 1 then 1 else 0) := by
  have hnone := (check_update_type_eq_none_iff oldv newv).mpr h
  have hstep := tallyStep_weird_of_none (compare_versions w g a) Counters.init
    oldv newv hnone
  refine ⟨hnone, ?_, ?_⟩
  · rw [compare_all_weird_amounts, compare_all_weird_amounts, runPairs_cons_cons]
    simp only [addC]
    rw [hstep.1]
    simp only [Counters.init]
    omega
  · rw [compare_all_weird_score, compare_all_weird_score, runPairs_cons_cons]
    simp only [addC]
    rw [hstep.2]
    simp only [Counters.init]
    omega

/-- C10 witness: instantiation at the identical pair "1.2.3", "1.2.3" in
front of an empty remainder, under the all-compatible world. -/
theorem C10_no_label_counts_weird_witness :
    check_update_type "1.2.3" "1.2.3" = none ∧
    (compare_all worldAllOk "org.example" "lib" ["1.2.3", "1.2.3"]).weird_amounts =
      (compare_all worldAllOk "org.example" "lib" ["1.2.3"]).weird_amounts + 1 ∧
    (compare_all worldAllOk "org.example" "lib" ["1.2.3", "1.2.3"]).weird_score =
      (compare_all worldAllOk "org.example" "lib" ["1.2.3"]).weird_score +
        (if compare_versions worldAllOk "org.example" "lib" "1.2.3" "1.2.3" = 1
          then 1 else 0) :=
  C10_no_label_counts_weird worldAllOk "org.example" "lib" "1.2.3" "1.2.3" []
    (by decide)

/-- C8 counterexample: the claim asserts that on EVERY fetch failure no
exception propagates to the caller and the assumed-compatible outcome is
returned. But `download_jar` catches only `urllib.error.HTTPError`: in a
world where the fetch of the old jar of a non-bom/parent artifact raises
any other exception (e.g. a `URLError` connection failure), the comparison
aborts with that exception — it propagates out of `compare_versions` and
no assumed-compatible outcome is produced. -/
theorem C8_fetch_exception_counterexample :
    compare_versionsE worldRaise "org.example" "lib" "1.0.0" "1.1.0" =
      Except.error (maven_to_path "org.example" "lib" "1.0.0") ∧
    compare_versionsE worldRaise "org.example" "lib" "1.0.0" "1.1.0" ≠
      Except.ok 1 := by
  refine ⟨rfl, fun hcon => ?_⟩
  rw [show compare_versionsE worldRaise "org.example" "lib" "1.0.0" "1.1.0" =
      Except.error (maven_to_path "org.example" "lib" "1.0.0") from rfl] at hcon
  exact Except.noConfusion hcon

/-- C8 (amended): when a transition's artifacts are unresolvable in a way
the code HANDLES — the artifact id contains "bom" or "parent", or a fetch
fails with the caught `HTTPError` while neither fetch raises an uncaught
exception — `compare_versions` returns `1` (the assumed-compatible
outcome), its result does not depend on the diff-tool oracle at all (the
tool is never invoked), and the `compare_all` loop step tallies the
transition exactly as it tallies a compatible outcome. Fetch failures
raising any other exception are NOT absorbed; they propagate to the caller
(see the counterexample). -/
theorem C8_unresolvable_caught_assumed_compatible (f : String → FetchOutcome)
    (jc jc2 : String → String → RunResult) (g a oldv newv : String)
    (c : Counters)
    (h : strContains a "bom" = true ∨ strContains a "parent" = true ∨
      ((f (maven_to_path g a oldv) = FetchOutcome.httpError ∨
        f (maven_to_path g a newv) = FetchOutcome.httpError) ∧
        f (maven_to_path g a oldv) ≠ FetchOutcome.raised ∧
        f (maven_to_path g a newv) ≠ FetchOutcome.raised)) :
    compare_versionsE ⟨f, jc⟩ g a oldv newv = Except.ok 1 ∧
    compare_versionsE ⟨f, jc⟩ g a oldv newv =
      compare_versionsE ⟨f, jc2⟩ g a oldv newv ∧
    tallyStep (fun o n => ((compare_versionsE ⟨f, jc⟩ g a o n).toOption.getD 0))
        c oldv newv =
      tallyStep (fun _ _ => 1) c oldv newv := by
  have key : ∀ jcx : String → String → RunResult,
      compare_versionsE ⟨f, jcx⟩ g a oldv newv = Except.ok 1 := by
    intro jcx
    simp only [compare_versionsE, download_jarE]
    by_cases hb : strContains a "bom" = true ∨ strContains a "parent" = true
    · simp [hb]
    · rw [not_or] at hb
      simp only [Bool.not_eq_true] at hb
      rcases h with h | h | h
      · rw [hb.1] at h
        cases h
      · rw [hb.2] at h
        cases h
      · obtain ⟨hhttp, hro, hrn⟩ := h
        rcases hfo : f (maven_to_path g a oldv) with _ | _ | _
        · rcases hfn : f (maven_to_path g a newv) with _ | _ | _
          · rw [hfo, hfn] at hhttp
            rcases hhttp with hc | hc <;> cases hc
          · simp [hb.1, hb.2, hfo, hfn]
          · exact absurd hfn hrn
        · rcases hfn : f (maven_to_path g a newv) with _ | _ | _
          · simp [hb.1, hb.2, hfo, hfn]
          · simp [hb.1, hb.2, hfo, hfn]
          · exact absurd hfn hrn
        · exact absurd hfo hro
  refine ⟨key jc, (key jc).trans (key jc2).symm, ?_⟩
  have hv : ((compare_versionsE ⟨f, jc⟩ g a oldv newv).toOption.getD 0) = 1 := by
    rw [key jc]
    rfl
  simp only [tallyStep, hv]

/-- C8 witness: instantiation at the artifact id "lib" in a world where
every fetch fails with the caught `HTTPError`, under two different
diff-tool oracles. -/
theorem C8_unresolvable_caught_assumed_compatible_witness :
    compare_versionsE ⟨fun _ => FetchOutcome.httpError, fun _ _ => ⟨"!", 1⟩⟩
        "org.example" "lib" "1.0.0" "1.1.0" = Except.ok 1 ∧
    compare_versionsE ⟨fun _ => FetchOutcome.httpError, fun _ _ => ⟨"!", 1⟩⟩
        "org.example" "lib" "1.0.0" "1.1.0" =
      compare_versionsE ⟨fun _ => FetchOutcome.httpError, fun _ _ => ⟨"", 0⟩⟩
        "org.example" "lib" "1.0.0" "1.1.0" ∧
    tallyStep (fun o n =>
        ((compare_versionsE ⟨fun _ => FetchOutcome.httpError,
            fun _ _ => ⟨"!", 1⟩⟩ "org.example" "lib" o n).toOption.getD 0))
        Counters.init "1.0.0" "1.1.0" =
      tallyStep (fun _ _ => 1) Counters.init "1.0.0" "1.1.0" :=
  C8_unresolvable_caught_assumed_compatible (fun _ => FetchOutcome.httpError)
    (fun _ _ => ⟨"!", 1⟩) (fun _ _ => ⟨"", 0⟩) "org.example" "lib" "1.0.0"
    "1.1.0" Counters.init (Or.inr (Or.inr ⟨Or.inl rfl, by decide, by decide⟩))

/-- C4 counterexample: on the single-version history `["1.0.0"]` the three
per-classification amounts sum to 0 (there are no transitions) while
`total_amounts` is `len(versions) = 1`, so the claimed identity fails. -/
theorem C4_amounts_counterexample :
    ¬((get_score worldAllOk "org.example" "lib" ["1.0.0"]).minor_amounts +
        (get_score worldAllOk "org.example" "lib" ["1.0.0"]).patch_amounts +
        (get_score worldAllOk "org.example" "lib" ["1.0.0"]).weird_amounts =
      (get_score worldAllOk "org.example" "lib" ["1.0.0"]).total_amounts) := by
  decide

/-- C4 (amended): the classification of transitions is total and mutually
exclusive, so `minor_amounts + patch_amounts + weird_amounts` equals the
total number of TRANSITIONS, i.e. the sum over major groups of
(group size - 1); `total_amounts`, however, is the number of VERSIONS of
the input history — a different quantity, from which it is separated by
the single-version counterexample (the two values can coincide on
particular histories). -/
theorem C4_amounts_amended (w : World) (g a : String) (versions : List String) :
    (get_score w g a versions).minor_amounts +
        (get_score w g a versions).patch_amounts +
        (get_score w g a versions).weird_amounts =
      ((split_majors versions).map (fun grp => grp.length - 1)).sum ∧
    (get_score w g a versions).total_amounts = versions.length := by
  refine ⟨?_, rfl⟩
  rw [get_score_minor_amounts, get_score_patch_amounts, get_score_weird_amounts,
    List.map_map, List.map_map, List.map_map, sum_map_add3]
  refine congrArg List.sum (List.map_congr_left fun grp _ => ?_)
  show (compare_all w g a grp).minor_amounts + (compare_all w g a grp).patch_amounts +
      (compare_all w g a grp).weird_amounts = grp.length - 1
  rw [compare_all_minor_amounts, compare_all_patch_amounts, compare_all_weird_amounts]
  exact runPairs_amounts _ grp

/-- C2 counterexample: under a world where every fetch succeeds and the
diff tool always reports a clean run, every invocation of
`compare_versions` returns compatible, yet on the history
`["1.0.0", "1.0.1"]` the aggregated `total_score` is `1/2` (the code
divides the compatible count by the number of VERSIONS in the group, not
the number of transitions), refuting `total_score == 1.0`. -/
theorem C2_total_score_counterexample :
    (∀ o n, compare_versions worldAllOk "org.example" "lib" o n = 1) ∧
    (get_score worldAllOk "org.example" "lib" ["1.0.0", "1.0.1"]).total_score ≠ 1 := by
  refine ⟨fun _ _ => rfl, ?_⟩
  rw [get_score_total_score,
    show split_majors ["1.0.0", "1.0.1"] = [["1.0.0", "1.0.1"]] from by decide]
  simp only [List.map_cons, List.map_nil, List.sum_cons, List.sum_nil,
    List.length_cons, List.length_nil]
  rw [compare_all_total_score,
    show (runPairs (compare_versions worldAllOk "org.example" "lib") Counters.init
        ["1.0.0", "1.0.1"]).total_score = 1 from by decide]
  norm_num

/-- C2 (amended): if every invocation of the comparator returns compatible,
the Score Record's `total_score` equals the unweighted mean over major
groups of `(group size - 1) / group size` — the per-group denominator is
the group's version count, not its transition count, so the result is never
`1.0` for a non-empty history. -/
theorem C2_total_score_all_compatible_amended (w : World) (g a : String)
    (versions : List String)
    (h : ∀ o n, compare_versions w g a o n = 1) :
    (get_score w g a versions).total_score =
      ((split_majors versions).map
          (fun grp => ((grp.length - 1 : ℕ) : ℚ) / (grp.length : ℚ))).sum /
        ((split_majors versions).length : ℚ) := by
  have hper : ∀ grp : List String, (compare_all w g a grp).total_score =
      ((grp.length - 1 : ℕ) : ℚ) / (grp.length : ℚ) := by
    intro grp
    rw [compare_all_total_score, runPairs_total_score_all_one _ _ h]
  rw [get_score_total_score]
  rcases hsm : split_majors versions with _ | ⟨g0, gs⟩
  · simp
  · simp only [List.length_map, List.map_map, List.length_cons]
    rw [if_pos (Nat.succ_pos gs.length)]
    congr 1
    exact congrArg List.sum (List.map_congr_left fun grp _ => hper grp)

/-- C2 witness: the amended statement instantiated on the two-major history
`["1.0.0", "1.0.1", "2.0.0"]` under the all-compatible world. -/
theorem C2_total_score_all_compatible_amended_witness :
    (get_score worldAllOk "org.example" "lib"
        ["1.0.0", "1.0.1", "2.0.0"]).total_score =
      ((split_majors ["1.0.0", "1.0.1", "2.0.0"]).map
          (fun grp => ((grp.length - 1 : ℕ) : ℚ) / (grp.length : ℚ))).sum /
        ((split_majors ["1.0.0", "1.0.1", "2.0.0"]).length : ℚ) :=
  C2_total_score_all_compatible_amended worldAllOk "org.example" "lib"
    ["1.0.0", "1.0.1", "2.0.0"] (fun _ _ => rfl)

/-- C3 counterexample: for the single-version history `["1.0.0"]` the
Score Record's `total_amounts` field is `len(versions) = 1`, not `0` as the
claim states for every amount field. -/
theorem C3_single_version_counterexample :
    (get_score worldAllOk "org.example" "lib" ["1.0.0"]).total_amounts = 1 ∧
    (get_score worldAllOk "org.example" "lib" ["1.0.0"]).total_amounts ≠ 0 := by
  decide

/-- C3 (amended): for a history of length 0 or 1 every ratio field of the
Score Record is 0 and every amount field is 0 EXCEPT `total_amounts`, which
equals the history length (so 1 for a single-version history); moreover no
group produced by `split_majors` is empty, so the one unguarded division of
`compare_all` (by the group length) never divides by zero, and the three
per-classification divisions of `get_score` are guarded to 0. -/
theorem C3_short_history_amended (w : World) (g a : String)
    (versions : List String) (h : versions.length ≤ 1) :
    (get_score w g a versions).total_score = 0 ∧
    (get_score w g a versions).minor_score = 0 ∧
    (get_score w g a versions).patch_score = 0 ∧
    (get_score w g a versions).weird_score = 0 ∧
    (get_score w g a versions).minor_amounts = 0 ∧
    (get_score w g a versions).patch_amounts = 0 ∧
    (get_score w g a versions).weird_amounts = 0 ∧
    (get_score w g a versions).total_amounts = versions.length ∧
    [] ∉ split_majors versions := by
  have hnil : [] ∉ split_majors versions := fun hmem =>
    split_majors_groups_ne_nil versions [] hmem rfl
  rcases versions with _ | ⟨v, _ | ⟨b, rest⟩⟩
  · exact ⟨rfl, rfl, rfl, rfl, rfl, rfl, rfl, rfl, hnil⟩
  · have hsw : strStartsWith v ((splitDots v).head?.getD "") = true := by
      have hmaj := strStartsWith_own_major v
      rwa [List.headD_eq_head?_getD] at hmaj
    have hsm : split_majors [v] = [[v]] := by
      simp [split_majors, splitMajorsAux, hsw]
    have hca := compare_all_short w g a [v] (by simp)
    refine ⟨?_, ?_, ?_, ?_, ?_, ?_, ?_, rfl, hnil⟩
    · rw [get_score_total_score, hsm]
      simp [hca]
    · rw [get_score_minor_score, hsm]
      simp [hca]
    · rw [get_score_patch_score, hsm]
      simp [hca]
    · rw [get_score_weird_score, hsm]
      simp [hca]
    · rw [get_score_minor_amounts, hsm]
      simp [hca]
    · rw [get_score_patch_amounts, hsm]
      simp [hca]
    · rw [get_score_weird_amounts, hsm]
      simp [hca]
  · exfalso
    simp only [List.length_cons] at h
    omega

/-- C3 witness: the amended statement instantiated on `["1.0.0"]`. -/
theorem C3_short_history_amended_witness :
    (get_score worldAllOk "org.example" "lib" ["1.0.0"]).total_score = 0 ∧
    (get_score worldAllOk "org.example" "lib" ["1.0.0"]).minor_score = 0 ∧
    (get_score worldAllOk "org.example" "lib" ["1.0.0"]).patch_score = 0 ∧
    (get_score worldAllOk "org.example" "lib" ["1.0.0"]).weird_score = 0 ∧
    (get_score worldAllOk "org.example" "lib" ["1.0.0"]).minor_amounts = 0 ∧
    (get_score worldAllOk "org.example" "lib" ["1.0.0"]).patch_amounts = 0 ∧
    (get_score worldAllOk "org.example" "lib" ["1.0.0"]).weird_amounts = 0 ∧
    (get_score worldAllOk "org.example" "lib" ["1.0.0"]).total_amounts =
      ["1.0.0"].length ∧
    [] ∉ split_majors ["1.0.0"] :=
  C3_short_history_amended worldAllOk "org.example" "lib" ["1.0.0"] (by decide)

end TrustScore
